import Mathlib

/-!
Verification of `src/view/ViewCommandHandlers.js` (Brackets view command
handlers): font-size adjustment commands and line-scrolling commands.

Shallow embedding conventions:
* JavaScript numbers are modelled as `ℚ` (all arithmetic in the module is
  exact on the inputs the claims quantify over); line indices are `ℤ`.
* `Math.ceil` / `Math.floor` are `Int.ceil` / `Int.floor` on `ℚ`;
  `Math.round x` is `⌊x + 1/2⌋` (JavaScript rounds half-way cases up).
* The DOM `<head>` element is a list of injected style rules; jQuery's
  `$("#id").remove()` (backed by `getElementById`) removes the first rule
  with the given id.  The CSS cascade makes the last matching `!important`
  rule the computed style, so the computed font metrics come from the last
  rule in the list carrying the dynamic-font id, falling back to the host
  stylesheet's base values.
* A computed CSS length (`$(".CodeMirror").css("font-size")`) is modelled
  as a magnitude/unit pair `CssStyle`.  The source validates the computed
  string against the regex `/^[\d\.]+(px|em)$/`; on the rendered string
  `"<num><unit>"` this holds exactly when the magnitude is a nonnegative
  decimal and the unit is `px` or `em`, which is how `validFont` is stated.
* `editor.refreshAll()` is observable only as an event; the state carries a
  counter of refreshes so that "no layout refresh occurs" is expressible.
* CodeMirror's `moveV(direction, "line")` is editor-internal; at the level
  of this module it is an emitted effect (`CursorEffect.moveV`).
-/

namespace ViewCommandHandlers

/-- A CSS length as read from a computed style: magnitude and unit
(e.g. `⟨12, "px"⟩` renders as `"12px"`, `⟨50, "%"⟩` as `"50%"`). -/
structure CssStyle where
  num : ℚ
  unit : String
deriving DecidableEq, Repr

/-- A `<style>` rule injected into the document head.  The dynamic font
rule forces `font-size` and `line-height` on all `.CodeMirror` surfaces. -/
structure StyleRule where
  id : String
  fs : CssStyle
  lh : CssStyle
deriving DecidableEq, Repr

/-- Source: `var DYNAMIC_FONT_STYLE_ID = "codemirror-dynamic-fonts";` -/
def DYNAMIC_FONT_STYLE_ID : String := "codemirror-dynamic-fonts"

/-- A cursor position (`{line, ch}`). -/
structure Pos where
  line : ℤ
  ch : ℤ
deriving DecidableEq, Repr

/-- An inline widget embedded in the host editor: its anchor line
(`editor._getInlineWidgetLineNumber`) and occupied pixel height
(`inlineEditor.info.height`). -/
structure Widget where
  line : ℤ
  height : ℚ
deriving DecidableEq, Repr

/-- The observable editor/DOM state the module reads and writes. -/
structure State where
  /-- computed `font-size` of `.CodeMirror` with no dynamic override -/
  baseFs : CssStyle
  /-- computed `line-height` of `.CodeMirror` with no dynamic override -/
  baseLh : CssStyle
  /-- style rules injected into `<head>` -/
  head : List StyleRule
  /-- `scrollInfo.left` / `getScrollPos().x` -/
  scrollX : ℚ
  /-- `scrollInfo.top` / `getScrollPos().y` -/
  scrollY : ℚ
  /-- number of `refreshAll()` calls issued so far -/
  refreshCount : ℕ
  /-- `scrollInfo.clientHeight` -/
  clientHeight : ℚ
  /-- `editor.getTextHeight()` -/
  textHeight : ℚ
  /-- `editor.getCursorPos()` -/
  cursor : Pos
  /-- `editor.hasSelection()` -/
  hasSelection : Bool
  /-- `editor._getLineSpaceElement().offsetTop` -/
  paddingTop : ℚ
  /-- `editor.getInlineWidgets()`, in enumeration order -/
  widgets : List Widget
deriving DecidableEq, Repr

/-- The last head rule with the dynamic-font id, i.e. the rule the CSS
cascade applies (with at most one instance this is the unique one). -/
def dynRule (head : List StyleRule) : Option StyleRule :=
  (head.filter fun r => r.id = DYNAMIC_FONT_STYLE_ID).getLast?

/-- Computed `$(".CodeMirror").css("font-size")`: the override if installed,
otherwise the host stylesheet's value. -/
def computedFs (s : State) : CssStyle :=
  match dynRule s.head with
  | some r => r.fs
  | none => s.baseFs

/-- Computed `$(".CodeMirror").css("line-height")`: likewise. -/
def computedLh (s : State) : CssStyle :=
  match dynRule s.head with
  | some r => r.lh
  | none => s.baseLh

/-- The regex test `fsStyle.search(/^[\d\.]+(px|em)$/) !== -1` on the
rendered string `"<num><unit>"`: a nonnegative decimal magnitude followed
by the unit `px` or `em`. -/
def validFont (c : CssStyle) : Bool :=
  (0 ≤ c.num) && (c.unit = "px" || c.unit = "em")

/-- JavaScript `Math.round` on a rational: half-way cases round toward
positive infinity. -/
def jsRound (q : ℚ) : ℤ := ⌊q + 1/2⌋

/-- Source `_removeDynamicFontSize(refresh)`: removes the element
`$("#codemirror-dynamic-fonts")` (the first rule with that id, per
`getElementById`), then refreshes the focused editor when asked. -/
def _removeDynamicFontSize (refresh : Bool) (s : State) : State :=
  let s1 := { s with head := s.head.eraseP fun r => r.id = DYNAMIC_FONT_STYLE_ID }
  if refresh then { s1 with refreshCount := s1.refreshCount + 1 } else s1

/-- Source `_adjustFontSize(direction)`: validate units, step font-size and
line-height, clamp small sizes, reinstall the dynamic style rule, refresh,
and (for pixel font sizes) correct the scroll position. -/
def _adjustFontSize (direction : ℤ) (s : State) : State :=
  let fsStyle := computedFs s
  let lhStyle := computedLh s
  if ¬ (validFont fsStyle ∧ validFont lhStyle) then s
  else
    let fsUnits := fsStyle.unit
    let lhUnits := lhStyle.unit
    let fsOld := fsStyle.num
    let lhOld := lhStyle.num
    let fsDelta0 : ℚ := if fsUnits = "px" then 1 else 1/10
    let lhDelta0 : ℚ := if lhUnits = "px" then 1 else 1/10
    let fsDelta := if direction = -1 then -fsDelta0 else fsDelta0
    let lhDelta := if direction = -1 then -lhDelta0 else lhDelta0
    let fsNew := fsOld + fsDelta
    let lhNew := lhOld + lhDelta
    -- Don't let the fonts get too small.
    if direction = -1 ∧
        ((fsUnits = "px" ∧ fsNew ≤ 1) ∨ (fsUnits = "em" ∧ fsNew ≤ 1/10)) then s
    else
      let s1 := _removeDynamicFontSize false s
      let s2 := { s1 with
        head := s1.head ++ [⟨DYNAMIC_FONT_STYLE_ID, ⟨fsNew, fsUnits⟩, ⟨lhNew, lhUnits⟩⟩],
        refreshCount := s1.refreshCount + 1 }
      if fsUnits = "px" then
        let scrollDeltaX : ℤ := jsRound (s2.scrollX / lhOld)
        let scrollDeltaY : ℤ := jsRound (s2.scrollY / lhOld)
        { s2 with
          scrollX := s2.scrollX + scrollDeltaX * direction,
          scrollY := s2.scrollY + scrollDeltaY * direction }
      else s2

/-- Source `_handleRestoreFontSize()`. -/
def _handleRestoreFontSize (s : State) : State :=
  _removeDynamicFontSize true s

/-- The `{first, last}` visible-line range. -/
structure LinesInView where
  first : ℤ
  last : ℤ
deriving DecidableEq, Repr

/-- Source `_getLinesInView(editor, scrollTop, editorHeight)`; the editor enters
only through `editor.getTextHeight()`, passed here as `textHeight`. -/
def _getLinesInView (textHeight scrollTop editorHeight : ℚ) : LinesInView :=
  let scrolledTop := scrollTop / textHeight
  let scrolledBottom := (scrollTop + editorHeight) / textHeight
  { first := ⌈scrolledTop⌉ - 1, last := ⌊scrolledBottom⌋ - 2 }

/-- The clamp from `_scrollLine`:
`scrollInfo.top < paddingTop && direction > 0 ? paddingTop : scrollInfo.top`. -/
def clampedScrollTop (direction : ℤ) (s : State) : ℚ :=
  if s.scrollY < s.paddingTop ∧ direction > 0 then s.paddingTop else s.scrollY

/-- One iteration of the `editor.getInlineWidgets().forEach` loop in
`_scrollLine`, acting on the running `(scrollTop, editorHeight,
linesInView)` triple. -/
def widgetStep (textHeight : ℚ) (acc : ℚ × ℚ × LinesInView) (w : Widget) :
    ℚ × ℚ × LinesInView :=
  let scrollTop := acc.1
  let editorHeight := acc.2.1
  let linesInView := acc.2.2
  let total := w.height / textHeight
  if w.line < linesInView.first then
    let scrollTop1 := scrollTop - w.height
    (scrollTop1, editorHeight, _getLinesInView textHeight scrollTop1 editorHeight)
  else if (w.line : ℚ) + total < (linesInView.last : ℚ) then
    let editorHeight1 := editorHeight - w.height
    (scrollTop, editorHeight1, _getLinesInView textHeight scrollTop editorHeight1)
  else acc

/-- The whole `forEach` loop: the widgets in enumeration order, each
processed against the currently recomputed triple. -/
def processWidgets (textHeight : ℚ) (widgets : List Widget)
    (scrollTop editorHeight : ℚ) (linesInView : LinesInView) :
    ℚ × ℚ × LinesInView :=
  widgets.foldl (widgetStep textHeight) (scrollTop, editorHeight, linesInView)

/-- The cursor mutation `_scrollLine` issues: nothing, an explicit
`setCursorPos`, or CodeMirror's native `moveV(direction, "line")`. -/
inductive CursorEffect where
  | none
  | setPos (p : Pos)
  | moveV (direction : ℤ)
deriving DecidableEq, Repr

/-- The observable outcome of `_scrollLine`: the cursor mutation issued
and the scroll position passed to `editor.setScrollPos`. -/
structure ScrollResult where
  cursor : CursorEffect
  scrollX : ℚ
  scrollY : ℚ
deriving DecidableEq, Repr

/-- The `(scrollTop, editorHeight, linesInView)` triple after the clamp,
the initial `_getLinesInView` call, and the inline-widget loop. -/
def scrollLineView (direction : ℤ) (s : State) : ℚ × ℚ × LinesInView :=
  let scrollTop := clampedScrollTop direction s
  processWidgets s.textHeight s.widgets scrollTop s.clientHeight
    (_getLinesInView s.textHeight scrollTop s.clientHeight)

/-- The `if (!hasSelecction) { ... }` branch of `_scrollLine`, deciding
which cursor mutation to issue. -/
def cursorAdjust (direction : ℤ) (cursorPos : Pos) (hasSelecction : Bool)
    (linesInView : LinesInView) : CursorEffect :=
  if hasSelecction then .none
  else if direction > 0 ∧ cursorPos.line < linesInView.first then
    .setPos ⟨linesInView.first + 1, cursorPos.ch⟩
  else if direction < 0 ∧ cursorPos.line > linesInView.last then
    .setPos ⟨linesInView.last - 1, cursorPos.ch⟩
  else if (direction > 0 ∧ cursorPos.line = linesInView.first) ∨
      (direction < 0 ∧ cursorPos.line = linesInView.last) then
    .moveV direction
  else .none

/-- Source `_scrollLine(direction)`.  Note that the source's `scrolledTop`
variable is assigned from the already-clamped `scrollTop` and is not
touched by the widget loop; the final `setScrollPos` call uses it. -/
def _scrollLine (direction : ℤ) (s : State) : ScrollResult :=
  let scrolledTop := clampedScrollTop direction s
  let linesInView := (scrollLineView direction s).2.2
  { cursor := cursorAdjust direction s.cursor s.hasSelection linesInView,
    scrollX := s.scrollX,
    scrollY := scrolledTop + s.textHeight * (direction : ℚ) }

/-- Applying `_scrollLine` as a state transformer: the issued cursor
mutation and scroll position to the editor.  Modelled from the spec for
the `moveV` case: the editor's native vertical motion "move[s] the cursor
one line in the scroll direction" (the editor internals are outside this
module). -/
def applyScrollLine (direction : ℤ) (s : State) : State :=
  let r := _scrollLine direction s
  let s1 :=
    match r.cursor with
    | .none => s
    | .setPos p => { s with cursor := p }
    | .moveV d => { s with cursor := ⟨s.cursor.line + d, s.cursor.ch⟩ }
  { s1 with scrollX := r.scrollX, scrollY := r.scrollY }

/-- The five commands the module registers with the `CommandManager`. -/
inductive Command where
  | increaseFontSize
  | decreaseFontSize
  | restoreFontSize
  | scrollLineUp
  | scrollLineDown
deriving DecidableEq, Repr

/-- Dispatch of the registered command handlers. -/
def runCommand : Command → State → State
  | .increaseFontSize => _adjustFontSize 1
  | .decreaseFontSize => _adjustFontSize (-1)
  | .restoreFontSize => _handleRestoreFontSize
  | .scrollLineUp => applyScrollLine (-1)
  | .scrollLineDown => applyScrollLine 1

/-- Spec §4.2, stated from the spec's own words: `computeVisibleLines`
with `first = ceil(scrollOffset / perLineTextHeight) − 1` and
`last = floor((scrollOffset + viewportHeight) / perLineTextHeight) − 2`. -/
def computeVisibleLines_spec (perLineTextHeight scrollOffset viewportHeight : ℚ) :
    LinesInView :=
  { first := ⌈scrollOffset / perLineTextHeight⌉ - 1,
    last := ⌊(scrollOffset + viewportHeight) / perLineTextHeight⌋ - 2 }

/-- The predicate selecting the dynamic font rule (spec-level measure of
how many instances of the override are installed). -/
def dynCount (head : List StyleRule) : ℕ :=
  (head.filter fun r => r.id = DYNAMIC_FONT_STYLE_ID).length

/-- A plain editor state: 12px/15px host font metrics, no override, no
widgets, no selection, cursor at the origin. -/
def baseState : State where
  baseFs := ⟨12, "px"⟩
  baseLh := ⟨15, "px"⟩
  head := []
  scrollX := 5
  scrollY := 30
  refreshCount := 0
  clientHeight := 100
  textHeight := 10
  cursor := ⟨0, 0⟩
  hasSelection := false
  paddingTop := 0
  widgets := []

/-- A state scrolled above the content padding (`scrollY < paddingTop`). -/
def scrollAboveTop : State :=
  { baseState with scrollY := 0, paddingTop := 10, textHeight := 20 }

/-- A state whose visible range is `{first := 5, last := 14}` with the
cursor on line 4, above the viewport. -/
def cursorAboveView : State :=
  { baseState with scrollY := 60, cursor := ⟨4, 2⟩ }

/-- A state with a single 30px inline widget anchored at line 0, scrolled
well past it. -/
def widgetAbove : State :=
  { baseState with scrollY := 100, clientHeight := 200, widgets := [⟨0, 30⟩] }

/-- A state whose host font-size uses an unsupported unit. -/
def percentFont : State :=
  { baseState with baseFs := ⟨50, "%"⟩ }

/-- A state whose computed font-size is 2px, one step above the clamp. -/
def twoPxFont : State :=
  { baseState with baseFs := ⟨2, "px"⟩, baseLh := ⟨10, "px"⟩ }

end ViewCommandHandlers

namespace ViewCommandHandlers

/-- C1: `_getLinesInView` agrees with the spec's `computeVisibleLines`
formula — `first = ⌈s/h⌉ − 1`, `last = ⌊(s+v)/h⌋ − 2` — as a pure function
of the three numeric inputs, and in particular maps `(h, s, v) =
(20, 100, 200)` to `{first := 4, last := 13}` and `(10, 0, 100)` to
`{first := -1, last := 8}`. -/
theorem getLinesInView_eq_spec :
    (∀ h s v : ℚ, _getLinesInView h s v = computeVisibleLines_spec h s v) ∧
    _getLinesInView 20 100 200 = ⟨4, 13⟩ ∧
    _getLinesInView 10 0 100 = ⟨-1, 8⟩ := by
  refine ⟨fun h s v => rfl, ?_, ?_⟩ <;>
    · show LinesInView.mk _ _ = _
      norm_num

/-- C2: Each inline widget, taken in enumeration order, is processed
against the currently recomputed visible range: a widget anchored strictly
above the current first visible line subtracts its height from the scroll
top and the range is recomputed; otherwise, one whose lower edge
`L + H/textHeight` is strictly above the current last visible line
subtracts its height from the viewport height and the range is recomputed.
Consequently a single widget anchored above the first visible line makes
the effective scroll top used for range computation exactly `H` lower than
in the no-widget case. -/
theorem scrollLine_widgetAdjustment :
    (∀ (th : ℚ) (acc : ℚ × ℚ × LinesInView) (w : Widget),
      (w.line < acc.2.2.first →
        widgetStep th acc w =
          (acc.1 - w.height, acc.2.1, _getLinesInView th (acc.1 - w.height) acc.2.1)) ∧
      (¬ w.line < acc.2.2.first →
        (w.line : ℚ) + w.height / th < (acc.2.2.last : ℚ) →
        widgetStep th acc w =
          (acc.1, acc.2.1 - w.height, _getLinesInView th acc.1 (acc.2.1 - w.height)))) ∧
    (∀ (th : ℚ) (ws : List Widget) (w : Widget) (st eh : ℚ) (liv : LinesInView),
      processWidgets th (w :: ws) st eh liv =
        ws.foldl (widgetStep th) (widgetStep th (st, eh, liv) w)) ∧
    (∀ (d : ℤ) (s : State) (w : Widget), s.widgets = [w] →
      w.line < (_getLinesInView s.textHeight (clampedScrollTop d s) s.clientHeight).first →
      (scrollLineView d s).1 = (scrollLineView d { s with widgets := [] }).1 - w.height ∧
      (scrollLineView d s).2.2 =
        _getLinesInView s.textHeight (clampedScrollTop d s - w.height) s.clientHeight) := by
  refine ⟨fun th acc w => ⟨fun h1 => ?_, fun h1 h2 => ?_⟩, fun th ws w st eh liv => rfl,
    fun d s w hw hlt => ?_⟩
  · simp only [widgetStep]
    rw [if_pos h1]
  · simp only [widgetStep]
    rw [if_neg h1, if_pos h2]
  · have hstep : scrollLineView d s =
        (clampedScrollTop d s - w.height, s.clientHeight,
          _getLinesInView s.textHeight (clampedScrollTop d s - w.height) s.clientHeight) := by
      simp only [scrollLineView, processWidgets, hw, List.foldl_cons, List.foldl_nil,
        widgetStep]
      rw [if_pos hlt]
    refine ⟨?_, by rw [hstep]⟩
    have hnone : scrollLineView d { s with widgets := [] } =
        (clampedScrollTop d s, s.clientHeight,
          _getLinesInView s.textHeight (clampedScrollTop d s) s.clientHeight) := rfl
    rw [hstep, hnone]

/-- Witness for C2 at concrete inputs: a widget at line 0 of height 30
against the range of `(textHeight, scrollTop, height) = (10, 100, 200)`,
the viewport-height branch against a range with `first = -5`, and the
single-widget state `widgetAbove`. -/
theorem scrollLine_widgetAdjustment_witness :
    widgetStep 10 (100, 200, ⟨9, 28⟩) ⟨0, 30⟩ = (70, 200, _getLinesInView 10 70 200) ∧
    widgetStep 10 (100, 200, ⟨-5, 28⟩) ⟨0, 30⟩ = (100, 170, _getLinesInView 10 100 170) ∧
    (scrollLineView 1 widgetAbove).1 =
      (scrollLineView 1 { widgetAbove with widgets := [] }).1 - 30 := by
  have h1 := (scrollLine_widgetAdjustment.1 10 (100, 200, ⟨9, 28⟩) ⟨0, 30⟩).1 (by decide)
  have h2 := (scrollLine_widgetAdjustment.1 10 (100, 200, ⟨-5, 28⟩) ⟨0, 30⟩).2 (by decide)
    (by norm_num)
  have h3 := (scrollLine_widgetAdjustment.2.2 1 widgetAbove ⟨0, 30⟩ rfl
    (by norm_num [_getLinesInView, clampedScrollTop, widgetAbove, baseState])).1
  norm_num at h1 h2
  exact ⟨h1, h2, by simpa using h3⟩

/-- C3 counterexample: In the state `scrollAboveTop` (actual scroll
top 0, content padding 10, text height 20), `scrollLine(+1)` does NOT set
the vertical offset to the original scroll top plus one line height
(0 + 20): the clamp feeds through to the final scroll position. -/
theorem scrollLine_scrollY_not_preClamp :
    (_scrollLine 1 scrollAboveTop).scrollY ≠
      scrollAboveTop.scrollY + scrollAboveTop.textHeight * 1 := by
  norm_num [_scrollLine, clampedScrollTop, scrollAboveTop, baseState]

/-- C3 amended: `scrollLine(direction)` finally sets the scroll
position with the horizontal offset unchanged and the vertical offset
equal to the *clamped* scroll top plus `textHeight * direction`; this
coincides with the original scroll top except precisely when the actual
scroll top is above the content padding and the direction is down, where
the padding offset is used instead. -/
theorem scrollLine_scrollPos :
    ∀ (d : ℤ) (s : State),
      (_scrollLine d s).scrollX = s.scrollX ∧
      (_scrollLine d s).scrollY = clampedScrollTop d s + s.textHeight * d ∧
      (¬ (s.scrollY < s.paddingTop ∧ d > 0) →
        (_scrollLine d s).scrollY = s.scrollY + s.textHeight * d) := by
  intro d s
  refine ⟨rfl, rfl, fun h => ?_⟩
  simp only [_scrollLine, clampedScrollTop, if_neg h]

/-- Witness for C3's amended theorem: in `baseState` (scroll top 30 at or
below the padding 0), `scrollLine(+1)` moves the scroll top to `30 + 10`. -/
theorem scrollLine_scrollPos_witness :
    (_scrollLine 1 baseState).scrollY = 30 + 10 * 1 := by
  have h := (scrollLine_scrollPos 1 baseState).2.2 (by norm_num [baseState])
  simpa [baseState] using h

/-- C4: `scrollLine(direction)` adjusts the cursor only when no
selection is active, and then: scrolling down with the cursor strictly
above the first visible line issues `setCursorPos(first + 1, ch)`;
scrolling up with the cursor strictly below the last visible line issues
`setCursorPos(last - 1, ch)`; at the boundary (`first` moving down,
`last` moving up) the editor's native one-line vertical motion is used;
otherwise — and always under a selection — no cursor mutation is issued. -/
theorem scrollLine_cursorAdjustment :
    ∀ (d : ℤ) (s : State),
      (s.hasSelection = true → (_scrollLine d s).cursor = CursorEffect.none) ∧
      (s.hasSelection = false →
        (d > 0 → s.cursor.line < (scrollLineView d s).2.2.first →
          (_scrollLine d s).cursor =
            CursorEffect.setPos ⟨(scrollLineView d s).2.2.first + 1, s.cursor.ch⟩) ∧
        (d < 0 → s.cursor.line > (scrollLineView d s).2.2.last →
          (_scrollLine d s).cursor =
            CursorEffect.setPos ⟨(scrollLineView d s).2.2.last - 1, s.cursor.ch⟩) ∧
        ((d > 0 ∧ s.cursor.line = (scrollLineView d s).2.2.first) ∨
            (d < 0 ∧ s.cursor.line = (scrollLineView d s).2.2.last) →
          (_scrollLine d s).cursor = CursorEffect.moveV d) ∧
        (¬ (d > 0 ∧ s.cursor.line < (scrollLineView d s).2.2.first) →
          ¬ (d < 0 ∧ s.cursor.line > (scrollLineView d s).2.2.last) →
          ¬ ((d > 0 ∧ s.cursor.line = (scrollLineView d s).2.2.first) ∨
              (d < 0 ∧ s.cursor.line = (scrollLineView d s).2.2.last)) →
          (_scrollLine d s).cursor = CursorEffect.none)) := by
  intro d s
  show (_ → cursorAdjust d s.cursor s.hasSelection _ = _) ∧ _
  set liv := (scrollLineView d s).2.2 with hliv
  constructor
  · intro hsel
    simp only [cursorAdjust, hsel, if_pos]
  · intro hsel
    refine ⟨fun hd hlt => ?_, fun hd hgt => ?_, fun hb => ?_, fun h1 h2 h3 => ?_⟩ <;>
      simp only [_scrollLine, cursorAdjust, ← hliv, hsel, Bool.false_eq_true, if_false]
    · rw [if_pos ⟨hd, hlt⟩]
    · rw [if_neg (by omega), if_pos ⟨hd, hgt⟩]
    · rcases hb with ⟨hd, he⟩ | ⟨hd, he⟩
      · rw [if_neg (by omega), if_neg (by omega), if_pos (Or.inl ⟨hd, he⟩)]
      · rw [if_neg (by omega), if_neg (by omega), if_pos (Or.inr ⟨hd, he⟩)]
    · rw [if_neg h1, if_neg h2, if_neg h3]

/-- Witness for C4: in `cursorAboveView` (no selection, cursor at line 4,
visible lines `{first := 5, last := 14}`), `scrollLine(+1)` issues
`setCursorPos(6, 2)`, and with a selection active it issues nothing. -/
theorem scrollLine_cursorAdjustment_witness :
    (_scrollLine 1 cursorAboveView).cursor = CursorEffect.setPos ⟨6, 2⟩ ∧
    (_scrollLine 1 { cursorAboveView with hasSelection := true }).cursor =
      CursorEffect.none := by
  have hliv : (scrollLineView 1 cursorAboveView).2.2 = ⟨5, 14⟩ := by
    show _getLinesInView 10 (clampedScrollTop 1 cursorAboveView) 100 = _
    norm_num [clampedScrollTop, cursorAboveView, baseState]
    show LinesInView.mk _ _ = _
    norm_num
  constructor
  · have h := ((scrollLine_cursorAdjustment 1 cursorAboveView).2 rfl).1 (by norm_num)
      (by rw [hliv]; decide)
    rw [h, hliv]
    norm_num [cursorAboveView, baseState]
  · exact (scrollLine_cursorAdjustment 1
      { cursorAboveView with hasSelection := true }).1 rfl

/-- Helper: rounding an integer leaves it unchanged. -/
theorem jsRound_intCast (k : ℤ) : jsRound (k : ℚ) = k := by
  rw [jsRound, Int.floor_int_add]
  norm_num

/-- Helper: the cascade sees a freshly appended dynamic rule. -/
theorem dynRule_concat (h : List StyleRule) (r : StyleRule)
    (hr : r.id = DYNAMIC_FONT_STYLE_ID) : dynRule (h ++ [r]) = some r := by
  simp [dynRule, List.filter_append, hr]

/-- Helper: `_adjustFontSize` with an invalid computed font-size or
line-height is the identity. -/
theorem adjust_invalid (d : ℤ) (s : State)
    (h : ¬ (validFont (computedFs s) ∧ validFont (computedLh s))) :
    _adjustFontSize d s = s := by
  simp only [_adjustFontSize]
  rw [if_pos h]

/-- Helper: `_adjustFontSize (-1)` with the clamp triggered is the
identity. -/
theorem adjust_clamp (s : State)
    (hle : ((computedFs s).unit = "px" ∧ (computedFs s).num - 1 ≤ 1) ∨
      ((computedFs s).unit = "em" ∧ (computedFs s).num - 1/10 ≤ 1/10)) :
    _adjustFontSize (-1) s = s := by
  by_cases h1 : validFont (computedFs s) ∧ validFont (computedLh s)
  · have hcond : ((computedFs s).unit = "px" ∧
        (computedFs s).num + -(if (computedFs s).unit = "px" then (1:ℚ) else 1/10) ≤ 1) ∨
        ((computedFs s).unit = "em" ∧
          (computedFs s).num + -(if (computedFs s).unit = "px" then (1:ℚ) else 1/10) ≤ 1/10) := by
      rcases hle with ⟨hu, hn⟩ | ⟨hu, hn⟩
      · refine Or.inl ⟨hu, ?_⟩
        rw [if_pos hu]
        linarith
      · have hnp : ¬ (computedFs s).unit = "px" := by
          rw [hu]
          decide
        refine Or.inr ⟨hu, ?_⟩
        rw [if_neg hnp]
        linarith
    simp only [_adjustFontSize]
    rw [if_neg (not_not_intro h1)]
    simp only [if_true, true_and]
    rw [if_pos hcond]
  · simp only [_adjustFontSize]
    rw [if_pos h1]

/-- Helper: the successful path of `_adjustFontSize` for a pixel
font-size: remove-then-install the override, refresh once, and correct the
scroll position against the old line height. -/
theorem adjust_install_px (d : ℤ) (s : State)
    (hfs : (computedFs s).unit = "px")
    (hv : validFont (computedFs s) ∧ validFont (computedLh s))
    (hc : ¬ (d = -1 ∧ (computedFs s).num - 1 ≤ 1)) :
    _adjustFontSize d s =
      { s with
        head := (s.head.eraseP fun r => r.id = DYNAMIC_FONT_STYLE_ID) ++
          [⟨DYNAMIC_FONT_STYLE_ID,
            ⟨(computedFs s).num + (if d = -1 then -1 else 1), "px"⟩,
            ⟨(computedLh s).num +
              (if d = -1 then -(if (computedLh s).unit = "px" then (1:ℚ) else 1/10)
               else (if (computedLh s).unit = "px" then (1:ℚ) else 1/10)),
              (computedLh s).unit⟩⟩],
        refreshCount := s.refreshCount + 1,
        scrollX := s.scrollX + jsRound (s.scrollX / (computedLh s).num) * d,
        scrollY := s.scrollY + jsRound (s.scrollY / (computedLh s).num) * d } := by
  have hnclamp : ¬ (d = -1 ∧
      (((computedFs s).unit = "px" ∧ (computedFs s).num +
        (if d = -1 then -(if (computedFs s).unit = "px" then (1:ℚ) else 1/10)
         else if (computedFs s).unit = "px" then (1:ℚ) else 1/10) ≤ 1) ∨
       ((computedFs s).unit = "em" ∧ (computedFs s).num +
        (if d = -1 then -(if (computedFs s).unit = "px" then (1:ℚ) else 1/10)
         else if (computedFs s).unit = "px" then (1:ℚ) else 1/10) ≤ 1/10))) := by
    rintro ⟨hd, ⟨hu, hnle⟩ | ⟨hu, hnle⟩⟩
    · rw [if_pos hd, if_pos hfs] at hnle
      exact hc ⟨hd, by linarith⟩
    · rw [hfs] at hu
      exact absurd hu (by decide)
  simp only [_adjustFontSize]
  rw [if_neg (not_not_intro hv), if_neg hnclamp, if_pos hfs]
  rw [hfs]
  simp [_removeDynamicFontSize]

/-- Helper: the successful path of `_adjustFontSize` for a relative (em)
font-size: remove-then-install and refresh, with no scroll correction. -/
theorem adjust_install_em (d : ℤ) (s : State)
    (hfs : (computedFs s).unit = "em")
    (hv : validFont (computedFs s) ∧ validFont (computedLh s))
    (hc : ¬ (d = -1 ∧ (computedFs s).num - 1/10 ≤ 1/10)) :
    _adjustFontSize d s =
      { s with
        head := (s.head.eraseP fun r => r.id = DYNAMIC_FONT_STYLE_ID) ++
          [⟨DYNAMIC_FONT_STYLE_ID,
            ⟨(computedFs s).num + (if d = -1 then -(1/10) else 1/10), "em"⟩,
            ⟨(computedLh s).num +
              (if d = -1 then -(if (computedLh s).unit = "px" then (1:ℚ) else 1/10)
               else (if (computedLh s).unit = "px" then (1:ℚ) else 1/10)),
              (computedLh s).unit⟩⟩],
        refreshCount := s.refreshCount + 1 } := by
  have hnpx : ¬ (computedFs s).unit = "px" := by
    rw [hfs]
    decide
  have hnclamp : ¬ (d = -1 ∧
      (((computedFs s).unit = "px" ∧ (computedFs s).num +
        (if d = -1 then -(if (computedFs s).unit = "px" then (1:ℚ) else 1/10)
         else if (computedFs s).unit = "px" then (1:ℚ) else 1/10) ≤ 1) ∨
       ((computedFs s).unit = "em" ∧ (computedFs s).num +
        (if d = -1 then -(if (computedFs s).unit = "px" then (1:ℚ) else 1/10)
         else if (computedFs s).unit = "px" then (1:ℚ) else 1/10) ≤ 1/10))) := by
    rintro ⟨hd, ⟨hu, hnle⟩ | ⟨hu, hnle⟩⟩
    · exact absurd hu hnpx
    · rw [if_pos hd, if_neg hnpx] at hnle
      exact hc ⟨hd, by linarith⟩
  simp only [_adjustFontSize]
  rw [if_neg (not_not_intro hv), if_neg hnclamp, if_neg hnpx]
  rw [hfs]
  simp [_removeDynamicFontSize]

theorem validFont_cases (c : CssStyle) (h : validFont c = true) :
    0 ≤ c.num ∧ (c.unit = "px" ∨ c.unit = "em") := by
  simp [validFont] at h
  exact h

theorem computedFs_eq_of_head (t : State) (l : List StyleRule) (r : StyleRule)
    (h : t.head = l ++ [r]) (hr : r.id = DYNAMIC_FONT_STYLE_ID) :
    computedFs t = r.fs := by
  rw [computedFs, h, dynRule_concat _ _ hr]

theorem computedLh_eq_of_head (t : State) (l : List StyleRule) (r : StyleRule)
    (h : t.head = l ++ [r]) (hr : r.id = DYNAMIC_FONT_STYLE_ID) :
    computedLh t = r.lh := by
  rw [computedLh, h, dynRule_concat _ _ hr]

theorem filter_eraseP_eq_nil (l : List StyleRule)
    (h : (l.filter fun r => r.id = DYNAMIC_FONT_STYLE_ID).length ≤ 1) :
    ((l.eraseP fun r => r.id = DYNAMIC_FONT_STYLE_ID).filter
      fun r => r.id = DYNAMIC_FONT_STYLE_ID) = [] := by
  induction l with
  | nil => rfl
  | cons a l ih =>
    by_cases ha : a.id = DYNAMIC_FONT_STYLE_ID
    · simp [List.eraseP_cons, List.filter_cons, ha] at h ⊢
      exact h
    · simp [List.eraseP_cons, List.filter_cons, ha] at h ⊢
      simpa using ih h

theorem eraseP_eq_self_of_dynRule_none (l : List StyleRule)
    (h : dynRule l = none) :
    (l.eraseP fun r => r.id = DYNAMIC_FONT_STYLE_ID) = l := by
  have hf : (l.filter fun r => r.id = DYNAMIC_FONT_STYLE_ID) = [] := by
    rw [dynRule] at h
    cases hfl : l.filter fun r => r.id = DYNAMIC_FONT_STYLE_ID
    · rfl
    · rw [hfl] at h
      simp at h
  rw [List.filter_eq_nil_iff] at hf
  apply List.eraseP_of_forall_not
  intro a ha
  simpa using hf a ha

theorem applyScrollLine_head (d : ℤ) (s : State) :
    (applyScrollLine d s).head = s.head := by
  rw [applyScrollLine]
  cases (_scrollLine d s).cursor <;> rfl

theorem adjust_head (d : ℤ) (s : State) :
    (_adjustFontSize d s).head = s.head ∨
    ∃ r : StyleRule, r.id = DYNAMIC_FONT_STYLE_ID ∧
      (_adjustFontSize d s).head =
        (s.head.eraseP fun x => x.id = DYNAMIC_FONT_STYLE_ID) ++ [r] := by
  simp only [_adjustFontSize, _removeDynamicFontSize]
  split_ifs <;> first
    | exact Or.inl rfl
    | exact Or.inr ⟨_, rfl, rfl⟩

/-- C5: when the font-size unit is pixel-based, `adjustFontSize(direction)`
rescales the scroll offset against the old line height — the offset in
line units, `round(scroll / lhOld)`, is stepped by one line-height unit per
line in the direction of change — and applies the new scroll offset; when
the scroll offset sits exactly at line `k`, the corrected offset is exactly
`k * (lhOld + direction)`, i.e. line `k`'s position under the new line
height, so the same logical line stays at the same screen position.  When
the font-size unit is relative (em), no scroll correction is applied. -/
theorem adjustFontSize_scrollCorrection :
    ∀ (d : ℤ) (s : State),
      ((computedFs s).unit = "px" →
        validFont (computedFs s) = true → validFont (computedLh s) = true →
        ¬ (d = -1 ∧ (computedFs s).num - 1 ≤ 1) →
        ((_adjustFontSize d s).scrollX =
            s.scrollX + jsRound (s.scrollX / (computedLh s).num) * d ∧
          (_adjustFontSize d s).scrollY =
            s.scrollY + jsRound (s.scrollY / (computedLh s).num) * d) ∧
        ((computedLh s).unit = "px" → 0 < (computedLh s).num →
          (d = 1 ∨ d = -1) →
          ∀ k : ℤ, s.scrollY = k * (computedLh s).num →
            (_adjustFontSize d s).scrollY = k * ((computedLh s).num + d) ∧
            computedLh (_adjustFontSize d s) = ⟨(computedLh s).num + d, "px"⟩)) ∧
      ((computedFs s).unit = "em" →
        (_adjustFontSize d s).scrollX = s.scrollX ∧
        (_adjustFontSize d s).scrollY = s.scrollY) := by
  intro d s
  constructor
  · intro hfs hv1 hv2 hc
    have he := adjust_install_px d s hfs ⟨hv1, hv2⟩ hc
    refine ⟨⟨by rw [he], by rw [he]⟩, ?_⟩
    intro hlh hpos hd k hk
    have hnum : s.scrollY / (computedLh s).num = (k : ℚ) := by
      rw [hk]
      field_simp
    have hY : (_adjustFontSize d s).scrollY = s.scrollY + (k : ℚ) * (d : ℚ) := by
      rw [he]
      show s.scrollY + (jsRound (s.scrollY / (computedLh s).num) : ℚ) * (d : ℚ) = _
      rw [hnum, jsRound_intCast]
    constructor
    · rw [hY, hk]
      ring
    · have hLh := computedLh_eq_of_head (_adjustFontSize d s) _ _ (by rw [he]) rfl
      rw [hLh]
      show CssStyle.mk _ _ = _
      rw [hlh]
      rcases hd with rfl | rfl <;> norm_num
  · intro hfs
    by_cases hv : validFont (computedFs s) = true ∧ validFont (computedLh s) = true
    · by_cases hcl : d = -1 ∧ (computedFs s).num - 1/10 ≤ 1/10
      · rcases hcl with ⟨rfl, hle⟩
        rw [adjust_clamp s (Or.inr ⟨hfs, hle⟩)]
        exact ⟨rfl, rfl⟩
      · rw [adjust_install_em d s hfs hv hcl]
        exact ⟨rfl, rfl⟩
    · rw [adjust_invalid d s hv]
      exact ⟨rfl, rfl⟩

/-- Witness for C5: from `baseState` (scroll top 30, line height 15px),
`adjustFontSize(+1)` moves the scroll top to `30 + round(30/15) = 32`
(line 2 under the 16px line height); with an em font-size the scroll top
stays 30. -/
theorem adjustFontSize_scrollCorrection_witness :
    (_adjustFontSize 1 baseState).scrollY = 32 ∧
    (_adjustFontSize 1 { baseState with baseFs := ⟨1, "em"⟩ }).scrollY = 30 := by
  constructor
  · have h := ((adjustFontSize_scrollCorrection 1 baseState).1 rfl (by decide) (by decide)
      (by rintro ⟨h, -⟩; cases h)).1.2
    rw [h]
    show (30:ℚ) + (jsRound ((30:ℚ)/15) : ℚ) * (1:ℚ) = 32
    norm_num [jsRound]
  · have h := ((adjustFontSize_scrollCorrection 1
      { baseState with baseFs := ⟨1, "em"⟩ }).2 rfl).2
    rw [h]
    rfl

/-- C6 counterexample: at the valid pixel font-size `f = 2`,
`adjustFontSize(-1)` is clamped to a no-op, so the subsequent
`adjustFontSize(+1)` yields computed font-size 3, not the original 2 —
the down-then-up round trip does not restore the original size. -/
theorem fontSize_downUp_not_inverse :
    computedFs (_adjustFontSize 1 (_adjustFontSize (-1) twoPxFont)) ≠
      computedFs twoPxFont := by
  have h1 : _adjustFontSize (-1) twoPxFont = twoPxFont :=
    adjust_clamp _ (Or.inl ⟨rfl, by show (2:ℚ) - 1 ≤ 1; norm_num⟩)
  have h2 := adjust_install_px 1 twoPxFont rfl ⟨by decide, by decide⟩
    (by rintro ⟨h, -⟩; cases h)
  rw [h1, h2, computedFs_eq_of_head _ _ _ rfl rfl]
  show CssStyle.mk ((2:ℚ) + if (1:ℤ) = -1 then -1 else 1) "px" ≠ CssStyle.mk 2 "px"
  norm_num

/-- C6 amended: for pixel font-sizes, `adjustFontSize(+1)` then
`adjustFontSize(-1)` restores the original computed font-size whenever
`1 < f`; the converse order `adjustFontSize(-1)` then `adjustFontSize(+1)`
restores it only when `2 < f` (and the line height stays representable,
i.e. one step below it is still nonnegative) — for `1 < f ≤ 2` the
decrease is clamped to a no-op and the sequence yields `f + 1`. -/
theorem fontSize_roundTrip :
    ∀ s : State, (computedFs s).unit = "px" →
      validFont (computedFs s) = true → validFont (computedLh s) = true →
      (1 < (computedFs s).num →
        computedFs (_adjustFontSize (-1) (_adjustFontSize 1 s)) = computedFs s) ∧
      (2 < (computedFs s).num →
        (if (computedLh s).unit = "px" then (1:ℚ) else 1/10) ≤ (computedLh s).num →
        computedFs (_adjustFontSize 1 (_adjustFontSize (-1) s)) = computedFs s) := by
  intro s hfs hv1 hv2
  obtain ⟨hfn, -⟩ := validFont_cases _ hv1
  obtain ⟨hln, hlu⟩ := validFont_cases _ hv2
  have hself : computedFs s = ⟨(computedFs s).num, "px"⟩ := by rw [← hfs]
  constructor
  · intro h1
    have e1 := adjust_install_px 1 s hfs ⟨hv1, hv2⟩ (by rintro ⟨h, -⟩; cases h)
    have hFs : computedFs (_adjustFontSize 1 s) = ⟨(computedFs s).num + 1, "px"⟩ := by
      rw [e1, computedFs_eq_of_head _ _ _ rfl rfl]
      norm_num
    have hLh : computedLh (_adjustFontSize 1 s) =
        ⟨(computedLh s).num + (if (computedLh s).unit = "px" then (1:ℚ) else 1/10),
          (computedLh s).unit⟩ := by
      rw [e1, computedLh_eq_of_head _ _ _ rfl rfl]
      norm_num
    have hv1a : validFont (computedFs (_adjustFontSize 1 s)) = true := by
      rw [hFs]
      simp [validFont]
      linarith
    have hv2a : validFont (computedLh (_adjustFontSize 1 s)) = true := by
      rw [hLh]
      simp [validFont]
      constructor
      · split_ifs <;> linarith
      · exact hlu
    have e2 := adjust_install_px (-1) (_adjustFontSize 1 s) (by rw [hFs])
      ⟨hv1a, hv2a⟩ (by
        rintro ⟨-, hle⟩
        rw [hFs] at hle
        simp only at hle
        linarith)
    rw [e2, computedFs_eq_of_head _ _ _ rfl rfl, hFs, hself]
    show CssStyle.mk _ _ = _
    norm_num
  · intro h2 hlge
    have e1 := adjust_install_px (-1) s hfs ⟨hv1, hv2⟩ (by
      rintro ⟨-, hle⟩
      linarith)
    have hFs : computedFs (_adjustFontSize (-1) s) = ⟨(computedFs s).num - 1, "px"⟩ := by
      rw [e1, computedFs_eq_of_head _ _ _ rfl rfl]
      show CssStyle.mk _ _ = _
      norm_num
      ring
    have hLh : computedLh (_adjustFontSize (-1) s) =
        ⟨(computedLh s).num - (if (computedLh s).unit = "px" then (1:ℚ) else 1/10),
          (computedLh s).unit⟩ := by
      rw [e1, computedLh_eq_of_head _ _ _ rfl rfl]
      show CssStyle.mk _ _ = _
      norm_num
      ring
    have hv1a : validFont (computedFs (_adjustFontSize (-1) s)) = true := by
      rw [hFs]
      simp [validFont]
      linarith
    have hv2a : validFont (computedLh (_adjustFontSize (-1) s)) = true := by
      rw [hLh]
      simp [validFont]
      constructor
      · linarith
      · exact hlu
    have e2 := adjust_install_px 1 (_adjustFontSize (-1) s) (by rw [hFs])
      ⟨hv1a, hv2a⟩ (by rintro ⟨h, -⟩; cases h)
    rw [e2, computedFs_eq_of_head _ _ _ rfl rfl, hFs, hself]
    show CssStyle.mk _ _ = _
    norm_num

/-- Witness for C6's amended theorem at `baseState` (12px font): both
round trips restore the 12px computed font-size. -/
theorem fontSize_roundTrip_witness :
    computedFs (_adjustFontSize (-1) (_adjustFontSize 1 baseState)) =
      computedFs baseState ∧
    computedFs (_adjustFontSize 1 (_adjustFontSize (-1) baseState)) =
      computedFs baseState := by
  have h := fontSize_roundTrip baseState rfl (by decide) (by decide)
  exact ⟨h.1 (by show (1:ℚ) < 12; norm_num),
    h.2 (by show (2:ℚ) < 12; norm_num)
      (by show (if ("px":String) = "px" then (1:ℚ) else 1/10) ≤ 15; norm_num)⟩

/-- C7: `adjustFontSize(-1)` never installs a font-size at or below 1
for pixel units (0.1 for em units): whenever the decremented size would
reach the threshold, the call aborts before any mutation — the whole state
(override, styles, refresh count, scroll position) is left untouched — and
otherwise the installed computed font-size stays strictly above the
threshold. -/
theorem fontSize_minClamp :
    ∀ s : State,
      ((computedFs s).unit = "px" → (computedFs s).num ≤ 2 →
        _adjustFontSize (-1) s = s) ∧
      ((computedFs s).unit = "em" → (computedFs s).num ≤ 1/5 →
        _adjustFontSize (-1) s = s) ∧
      ((computedFs s).unit = "px" →
        _adjustFontSize (-1) s = s ∨ 1 < (computedFs (_adjustFontSize (-1) s)).num) ∧
      ((computedFs s).unit = "em" →
        _adjustFontSize (-1) s = s ∨ 1/10 < (computedFs (_adjustFontSize (-1) s)).num) := by
  intro s
  refine ⟨fun hu hn => adjust_clamp s (Or.inl ⟨hu, by linarith⟩),
    fun hu hn => adjust_clamp s (Or.inr ⟨hu, by linarith⟩), fun hu => ?_, fun hu => ?_⟩
  · by_cases hv : validFont (computedFs s) = true ∧ validFont (computedLh s) = true
    · by_cases hcl : (computedFs s).num - 1 ≤ 1
      · exact Or.inl (adjust_clamp s (Or.inl ⟨hu, hcl⟩))
      · refine Or.inr ?_
        have he := adjust_install_px (-1) s hu hv (by rintro ⟨-, hle⟩; exact hcl hle)
        rw [he, computedFs_eq_of_head _ _ _ rfl rfl]
        show (1:ℚ) < (computedFs s).num + if (-1:ℤ) = -1 then -1 else 1
        norm_num
        linarith
    · exact Or.inl (adjust_invalid _ _ hv)
  · by_cases hv : validFont (computedFs s) = true ∧ validFont (computedLh s) = true
    · by_cases hcl : (computedFs s).num - 1/10 ≤ 1/10
      · exact Or.inl (adjust_clamp s (Or.inr ⟨hu, hcl⟩))
      · refine Or.inr ?_
        have he := adjust_install_em (-1) s hu hv (by rintro ⟨-, hle⟩; exact hcl hle)
        rw [he, computedFs_eq_of_head _ _ _ rfl rfl]
        show (1:ℚ)/10 < (computedFs s).num + if (-1:ℤ) = -1 then -(1/10) else 1/10
        norm_num
        linarith
    · exact Or.inl (adjust_invalid _ _ hv)

/-- Witness for C7: at the 2px font-size state `twoPxFont`,
`adjustFontSize(-1)` is a complete no-op. -/
theorem fontSize_minClamp_witness :
    _adjustFontSize (-1) twoPxFont = twoPxFont := by
  exact (fontSize_minClamp twoPxFont).1 rfl (by show (2:ℚ) ≤ 2; norm_num)

/-- C8: if either the computed font-size or the computed line-height
fails the `<number>(px|em)` pattern, `adjustFontSize(direction)` is a
silent no-op for every direction — the state (font styles, scroll
position, refresh count) is left entirely unchanged — and the example
style `"50%"` indeed fails the pattern. -/
theorem fontSize_invalidUnit_noop :
    (∀ (d : ℤ) (s : State),
      ¬ (validFont (computedFs s) = true ∧ validFont (computedLh s) = true) →
      _adjustFontSize d s = s) ∧
    validFont ⟨50, "%"⟩ = false := by
  refine ⟨fun d s h => adjust_invalid d s h, by decide⟩

/-- Witness for C8: with the host font-size `"50%"` (`percentFont`),
`adjustFontSize(+1)` changes nothing. -/
theorem fontSize_invalidUnit_noop_witness :
    _adjustFontSize 1 percentFont = percentFont :=
  fontSize_invalidUnit_noop.1 1 percentFont (by decide)

/-- C9: at most one dynamic font override rule (id
`"codemirror-dynamic-fonts"`) ever exists: every command the module
registers preserves the invariant that at most one such rule is installed
(each font adjustment removes any prior instance before installing the new
one), and `restoreFontSize` removes the instance outright. -/
theorem dynamicFontRule_singleton :
    (∀ (c : Command) (s : State),
      dynCount s.head ≤ 1 → dynCount (runCommand c s).head ≤ 1) ∧
    (∀ s : State, dynCount s.head ≤ 1 →
      dynCount (_handleRestoreFontSize s).head = 0) := by
  have hrest : ∀ s : State, dynCount s.head ≤ 1 →
      dynCount (_handleRestoreFontSize s).head = 0 := by
    intro s h
    have hh : (_handleRestoreFontSize s).head =
        s.head.eraseP fun r => r.id = DYNAMIC_FONT_STYLE_ID := rfl
    rw [dynCount, hh, filter_eraseP_eq_nil s.head h]
    rfl
  have hadj : ∀ (d : ℤ) (s : State), dynCount s.head ≤ 1 →
      dynCount (_adjustFontSize d s).head ≤ 1 := by
    intro d s h
    rcases adjust_head d s with hh | ⟨r, hr, hh⟩
    · rw [dynCount, hh]
      exact h
    · rw [dynCount, hh, List.filter_append, filter_eraseP_eq_nil s.head h]
      simp [hr]
  refine ⟨fun c s h => ?_, hrest⟩
  cases c with
  | increaseFontSize => exact hadj 1 s h
  | decreaseFontSize => exact hadj (-1) s h
  | restoreFontSize =>
      show dynCount (_handleRestoreFontSize s).head ≤ 1
      rw [hrest s h]
      norm_num
  | scrollLineUp =>
      show dynCount (applyScrollLine (-1) s).head ≤ 1
      rw [dynCount, applyScrollLine_head]
      exact h
  | scrollLineDown =>
      show dynCount (applyScrollLine 1 s).head ≤ 1
      rw [dynCount, applyScrollLine_head]
      exact h

/-- Witness for C9 at a concrete command and state. -/
theorem dynamicFontRule_singleton_witness :
    dynCount (runCommand Command.increaseFontSize baseState).head ≤ 1 :=
  dynamicFontRule_singleton.1 Command.increaseFontSize baseState (by decide)

/-- C10 counterexample: with no override installed, `restoreFontSize()`
is not a no-op — it still issues a layout refresh of the focused
editor. -/
theorem restoreFontSize_not_noop :
    _handleRestoreFontSize baseState ≠ baseState := by
  intro h
  have hc := congrArg State.refreshCount h
  simp [_handleRestoreFontSize, _removeDynamicFontSize, baseState] at hc

/-- C10 amended: `restoreFontSize()` removes the dynamic override
entirely (the subsequent computed font-size and line-height equal the
pre-override baselines) and always forces exactly one layout refresh of
the focused editor; when no override is installed it changes nothing
except still issuing that layout refresh. -/
theorem restoreFontSize_removes :
    ∀ s : State,
      (dynCount s.head ≤ 1 →
        dynRule (_handleRestoreFontSize s).head = none ∧
        computedFs (_handleRestoreFontSize s) = s.baseFs ∧
        computedLh (_handleRestoreFontSize s) = s.baseLh) ∧
      (_handleRestoreFontSize s).refreshCount = s.refreshCount + 1 ∧
      (dynRule s.head = none →
        _handleRestoreFontSize s = { s with refreshCount := s.refreshCount + 1 }) := by
  intro s
  have hh : (_handleRestoreFontSize s).head =
      s.head.eraseP fun r => r.id = DYNAMIC_FONT_STYLE_ID := rfl
  refine ⟨fun h => ?_, rfl, fun h => ?_⟩
  · have hdr : dynRule (_handleRestoreFontSize s).head = none := by
      rw [hh, dynRule, filter_eraseP_eq_nil s.head h]
      rfl
    refine ⟨hdr, ?_, ?_⟩
    · rw [computedFs, hdr]
      rfl
    · rw [computedLh, hdr]
      rfl
  · have he := eraseP_eq_self_of_dynRule_none s.head h
    show _removeDynamicFontSize true s = _
    simp only [_removeDynamicFontSize, he, if_true]

/-- Witness for C10's amended theorem at `baseState` (no override). -/
theorem restoreFontSize_removes_witness :
    computedFs (_handleRestoreFontSize baseState) = baseState.baseFs ∧
    _handleRestoreFontSize baseState =
      { baseState with refreshCount := baseState.refreshCount + 1 } := by
  have h := restoreFontSize_removes baseState
  exact ⟨(h.1 (by decide)).2.1, h.2.2 rfl⟩

end ViewCommandHandlers
